import Mathlib

/-!
Verification development for the multi-tenant operational dashboard
(`src/app.js`, the session-isolated revision). The definitions below are a
shallow embedding of the code: JavaScript objects become structures, the
module-level mutable maps (`connectionPool`, `guestStorage`, the per-URI
MongoDB databases, `PIPELINE_STATUS`) become an explicit `AppState` threaded
through the route handlers, and exceptions become `Except`.
-/

/-- Truthiness of an optional JavaScript string: `undefined` and the empty
string are falsy, every other string is truthy. -/
def jsTruthy (o : Option String) : Bool :=
  match o with
  | none => false
  | some s => !(s == "")

/-- Falsiness of an optional JavaScript string (`!x` in the source). -/
def jsFalsy (o : Option String) : Bool := !(jsTruthy o)

/-- Lookup in an association list used to model a JavaScript object or `Map`
keyed by strings. -/
def assocLookup {α : Type} (l : List (String × α)) (k : String) : Option α :=
  (l.find? (fun e => e.1 == k)).map (fun e => e.2)

/-- Assignment `obj[k] = v` on a JavaScript object or `Map.set`: any earlier
binding of the key is replaced. -/
def objSet {α : Type} (l : List (String × α)) (k : String) (v : α) :
    List (String × α) :=
  l.filter (fun e => !(e.1 == k)) ++ [(k, v)]

/-- The double-quote character. -/
def quoteD : Char := Char.ofNat 34

/-- The single-quote character. -/
def quoteS : Char := Char.ofNat 39

/-- The backtick character. -/
def quoteB : Char := Char.ofNat 96

/-- The backslash character. -/
def backslashChar : Char := Char.ofNat 92

/-- Quote characters accepted by the dotenv value grammar. -/
def isQuoteChar (c : Char) : Bool := c == quoteD || c == quoteS || c == quoteB

/-- Whitespace as matched by the regex class used by dotenv, restricted to the
characters that can remain after newline normalization. -/
def isWsChar (c : Char) : Bool := c == ' ' || c == '\t' || c == '\n'

/-- Whitespace that does not end a physical line. -/
def isInlineWsChar (c : Char) : Bool := c == ' ' || c == '\t'

/-- Key characters of the dotenv grammar, the regex class of word characters
together with dot and dash. -/
def isKeyChar (c : Char) : Bool :=
  c.isAlphanum || c == '_' || c == '.' || c == '-'

/-- Newline normalization performed by dotenv before scanning: every carriage
return, alone or followed by a line feed, becomes a single line feed. -/
def normalizeNewlines : List Char → List Char
  | [] => []
  | [c] => if c == '\r' then ['\n'] else [c]
  | c :: c2 :: rest2 =>
    if c == '\r' then
      if c2 == '\n' then '\n' :: normalizeNewlines rest2
      else '\n' :: normalizeNewlines (c2 :: rest2)
    else c :: normalizeNewlines (c2 :: rest2)

/-- Drop the remainder of the current physical line, including the terminating
line feed. -/
def dropLine : List Char → List Char
  | [] => []
  | c :: rest => if c == '\n' then rest else dropLine rest

/-- Longest leading run of key characters, paired with the rest of the
input. -/
def takeKey : List Char → List Char × List Char
  | [] => ([], [])
  | c :: rest =>
    if isKeyChar c then
      let pr := takeKey rest
      (c :: pr.1, pr.2)
    else ([], c :: rest)

/-- Scan a quoted value up to the next unescaped closing quote, which may lie
on a later physical line; an escaped quote stays part of the content.  Returns
the content and the input after the closing quote, or nothing if the quote is
never closed. -/
def scanQuoted (q : Char) : List Char → Option (List Char × List Char)
  | [] => none
  | [c] =>
    if c == backslashChar then none
    else if c == q then some ([], [])
    else none
  | c :: c2 :: rest2 =>
    if c == backslashChar then
      if c2 == q then
        match scanQuoted q rest2 with
        | some pr => some (c :: c2 :: pr.1, pr.2)
        | none => none
      else
        match scanQuoted q (c2 :: rest2) with
        | some pr => some (c :: pr.1, pr.2)
        | none => none
    else if c == q then some ([], c2 :: rest2)
    else
      match scanQuoted q (c2 :: rest2) with
      | some pr => some (c :: pr.1, pr.2)
      | none => none

/-- Expansion of the escape sequences that dotenv rewrites inside a
double-quoted value: a backslash-n pair becomes a line feed and a backslash-r
pair becomes a carriage return. -/
def expandEscapes : List Char → List Char
  | [] => []
  | [c] => [c]
  | c :: c2 :: rest2 =>
    if c == backslashChar then
      if c2 == 'n' then '\n' :: expandEscapes rest2
      else if c2 == 'r' then '\r' :: expandEscapes rest2
      else c :: expandEscapes (c2 :: rest2)
    else c :: expandEscapes (c2 :: rest2)

/-- Trim inline whitespace from both ends of a scanned value. -/
def trimChars (l : List Char) : List Char :=
  ((l.dropWhile isInlineWsChar).reverse.dropWhile isInlineWsChar).reverse

/-- Unquoted values stop at a comment sign or at the end of the physical
line. -/
def spanValue (l : List Char) : List Char × List Char :=
  l.span (fun c => !(c == '#') && !(c == '\n'))

/-- Post-processing dotenv applies to a raw single-line value: trim, strip one
surrounding pair of matching quotes, and expand escapes when the value started
with a double quote. -/
def processValue (raw : List Char) : List Char :=
  let v := trimChars raw
  match v with
  | [] => []
  | c :: rest =>
    let stripped :=
      if isQuoteChar c && !rest.isEmpty && (rest.getLast? == some c) then
        rest.dropLast
      else c :: rest
    if c == quoteD then expandEscapes stripped else stripped

/-- The characters of the optional `export` keyword of the dotenv grammar. -/
def exportChars : List Char := ['e', 'x', 'p', 'o', 'r', 't']

/-- Whether the input begins with a whitespace character. -/
def headWs (l : List Char) : Bool :=
  match l with
  | [] => false
  | c :: _ => isWsChar c

/-- One scanning loop of the dotenv parser (the repeated application of its
line-matching regex).  Each iteration either records one `KEY=VALUE`
assignment, whose value may be a quoted span covering several physical lines,
or skips one line that carries no assignment (comment lines, blank lines,
lines without a separator).  The first argument is fuel bounding the number of
iterations; every iteration consumes at least one character, so the caller
passes one more than the length of the input and the bound is never hit. -/
def envScanGo : Nat → List Char → List (String × String) → List (String × String)
  | 0, _, acc => acc
  | f + 1, cs, acc =>
    let cs1 := cs.dropWhile isWsChar
    match cs1 with
    | [] => acc
    | _ :: _ =>
      let kk := takeKey cs1
      if kk.1.isEmpty then envScanGo f (dropLine cs1) acc
      else
        let ke :=
          if kk.1 == exportChars && headWs kk.2 then
            takeKey (kk.2.dropWhile isWsChar)
          else kk
        if ke.1.isEmpty then envScanGo f (dropLine cs1) acc
        else
          let cs3 := ke.2.dropWhile isInlineWsChar
          match cs3 with
          | [] => acc
          | sep :: cs5 =>
            if sep == '=' || (sep == ':' && headWs cs5) then
              let cs6 := cs5.dropWhile isInlineWsChar
              match cs6 with
              | [] => envScanGo f [] (objSet acc (String.mk ke.1) (String.mk []))
              | q :: cs7 =>
                if isQuoteChar q then
                  match scanQuoted q cs7 with
                  | some pr =>
                    let content := if q == quoteD then expandEscapes pr.1 else pr.1
                    envScanGo f (dropLine pr.2)
                      (objSet acc (String.mk ke.1) (String.mk content))
                  | none =>
                    let pr := spanValue cs6
                    envScanGo f (dropLine pr.2)
                      (objSet acc (String.mk ke.1) (String.mk (processValue pr.1)))
                else
                  let pr := spanValue cs6
                  envScanGo f (dropLine pr.2)
                    (objSet acc (String.mk ke.1) (String.mk (processValue pr.1)))
            else envScanGo f (dropLine cs1) acc

/-- Model of `parseEnvContent` (src/app.js line 476), which delegates to the
dotenv parser: normalize newlines, then scan the whole blob, later bindings of
a key replacing earlier ones. -/
def parseEnvContent (s : String) : List (String × String) :=
  let cs := normalizeNewlines s.data
  envScanGo (cs.length + 1) cs []

/-! Domain entities: registered targets, health-log entries and deployment
records, with the shapes of the mongoose schemas (src/app.js lines 530-553)
and of the guest seed snapshot. -/

/-- A registered target (the `Server` schema: name, url, status with default
"Unknown"; the name carries a unique index). -/
structure ServerEntry where
  name : String
  url : String
  status : String
deriving DecidableEq

/-- One entry of a health status mapping: `Up` or `Down` plus a reason. -/
structure StatusEntry where
  status : String
  reason : String
deriving DecidableEq

/-- A health-check log entry (the `Log` schema). -/
structure LogEntry where
  timestamp : Int
  statuses : List (String × StatusEntry)
deriving DecidableEq

/-- A deployment record (the `Deployment` schema, the fields the embedded
routes populate). -/
structure DeploymentRec where
  version : String
  status : String
  timestamp : Int
  provider : String
  project : Option String
  environment : Option String
deriving DecidableEq

/-- The per-session in-memory dataset served in guest mode. -/
structure GuestData where
  servers : List ServerEntry
  logs : List LogEntry
  deployments : List DeploymentRec
deriving DecidableEq

/-- The contents of one MongoDB database, keyed in the app state by its
connection URI. -/
structure Db where
  servers : List ServerEntry
  logs : List LogEntry
  deployments : List DeploymentRec
deriving DecidableEq

/-- A connection handle from `mongoose.createConnection`; handles are
identified by a creation serial number. -/
structure Conn where
  id : Nat
deriving DecidableEq

/-- The module-level mutable state of src/app.js: the guest storage map, the
per-session connection pool with its instrumentation (a serial for fresh
handles and a creation counter for the reuse property), the backing stores
reachable by URI, and the process-wide pipeline status flag. -/
structure AppState where
  guestStorage : List (String × GuestData)
  pool : List (String × Conn)
  nextId : Nat
  created : Nat
  stores : List (String × Db)
  pipeline : String
deriving DecidableEq

/-- The external environment of the process: which connection handles are
still live (`readyState === 1`) and which connection URIs accept a new
connection. -/
structure Env where
  live : Nat → Bool
  connectOk : String → Bool

/-- The initial module state (empty maps, `PIPELINE_STATUS = "success"`). -/
def initialState : AppState :=
  { guestStorage := [], pool := [], nextId := 0, created := 0, stores := [],
    pipeline := "success" }

/-- The seed snapshot copied into the guest storage on first access
(src/app.js lines 443-472). -/
def guestSeed (now : Int) : GuestData :=
  { servers :=
      [⟨"Demo Server 1", "https://httpstat.us/200", "Up"⟩,
       ⟨"Demo Server 2", "https://httpstat.us/500", "Down"⟩],
    logs :=
      [⟨now - 60000,
        [("Demo Server 1", ⟨"Up", "OK 200"⟩),
         ("Demo Server 2", ⟨"Down", "HTTP 500"⟩)]⟩],
    deployments :=
      [⟨"v1.0.0", "success", now - 120000, "manual", some "Demo Project",
        some "production"⟩] }

/-- Model of `getGuestData`: return the session's dataset, materializing a
fresh copy of the seed on first access. -/
def getGuestData (now : Int) (sessionId : String)
    (g : List (String × GuestData)) : GuestData × List (String × GuestData) :=
  match assocLookup g sessionId with
  | some d => (d, g)
  | none => (guestSeed now, objSet g sessionId (guestSeed now))

/-- The composite registry key `sessionId + ":" + mongoUri` built by
`getConnection`. -/
def connectionKey (sessionId mongoUri : String) : String :=
  sessionId ++ ":" ++ mongoUri

/-- Establishing a fresh connection (`mongoose.createConnection` followed by
`asPromise`): on success the handle is cached under the key and the serial and
creation counter advance; on failure the error propagates and nothing is
cached. -/
def createConnection (env : Env) (st : AppState) (key uri : String) :
    Except String Conn × AppState :=
  if env.connectOk uri then
    (Except.ok ⟨st.nextId⟩,
     { st with pool := objSet st.pool key ⟨st.nextId⟩,
               nextId := st.nextId + 1, created := st.created + 1 })
  else (Except.error "MongoDB connection error", st)

/-- Model of `getConnection` (src/app.js lines 484-517): reject falsy
arguments, return a cached handle whose liveness check passes, evict a dead
cached handle, and otherwise establish, cache and return a fresh
connection. -/
def getConnection (env : Env) (st : AppState) (sessionId : String)
    (mongoUri : Option String) : Except String Conn × AppState :=
  if sessionId == "" || jsFalsy mongoUri then
    (Except.error "Session ID and MongoDB URI are required", st)
  else
    let uri := mongoUri.getD ""
    let key := connectionKey sessionId uri
    match assocLookup st.pool key with
    | some conn =>
      if env.live conn.id then (Except.ok conn, st)
      else
        createConnection env
          { st with pool := st.pool.filter (fun e => !(e.1 == key)) } key uri
    | none => createConnection env st key uri

/-- The periodic pool sweep (src/app.js lines 520-527): close and drop every
cached connection whose liveness check fails. -/
def sweepConnections (env : Env) (st : AppState) : AppState :=
  { st with pool := st.pool.filter (fun e => env.live e.2.id) }

/-- The state effect of the logout route (src/app.js lines 715-742): drop the
session's guest dataset and close and remove every pool entry whose KEY
STARTS WITH the session identity (the `key.startsWith(sessionId)` test of the
source, a plain string-prefix comparison on the composite key). -/
def logoutCleanup (sessionId : String) (st : AppState) : AppState :=
  { st with
    guestStorage := st.guestStorage.filter (fun e => !(e.1 == sessionId)),
    pool := st.pool.filter
      (fun e => !(e.1.data.take sessionId.data.length == sessionId.data)) }

/-! Session context. -/

/-- The credential bundle stored on a session by the upload route.  The guest
configuration has no backing-store address, hence the optional `MONGO_URI`.
`PORT` is kept as the uploaded string, with "3000" standing for the numeric
default. -/
structure SessionConfig where
  MONGO_URI : Option String
  API_KEY : String
  RENDER_API_KEY : String
  PORT : String
deriving DecidableEq

/-- The guest-mode default configuration `GUEST_CONFIG` (src/app.js lines
434-438). -/
def GUEST_CONFIG : SessionConfig :=
  { MONGO_URI := none, API_KEY := "guest-api-key-12345",
    RENDER_API_KEY := "", PORT := "3000" }

/-- The per-request session record: the two fields the routes read and write.
A field is `none` while the corresponding JavaScript property is unset. -/
structure SessionData where
  config : Option SessionConfig
  isGuest : Option Bool
deriving DecidableEq

/-- A session record with neither property set, as a request sees it before
any activation (or after expiry of the stored session). -/
def freshSession : SessionData := { config := none, isGuest := none }

/-- Outcome of the `requireAuth` gate. -/
inductive AuthGate where
  | proceed
  | redirectUploadRequired
deriving DecidableEq

/-- Model of the `requireAuth` middleware (src/app.js lines 574-582): proceed
when the session is credentialed with a stored config or is in guest mode,
otherwise redirect to the upload page. -/
def requireAuth (s : SessionData) : AuthGate :=
  if s.isGuest == some false && s.config.isSome then AuthGate.proceed
  else if s.isGuest == some true then AuthGate.proceed
  else AuthGate.redirectUploadRequired

/-- Model of the `authenticate` middleware (src/app.js lines 585-594): the
`x-api-key` header must equal the session's API key, the guest default when no
config is stored. -/
def authenticate (apiKeyHeader : Option String) (s : SessionData) : Bool :=
  let sessionApiKey :=
    match s.config with
    | some c => c.API_KEY
    | none => GUEST_CONFIG.API_KEY
  apiKeyHeader == some sessionApiKey

/-- A stored server-side session with the time of its last activity. -/
structure StoredSession where
  data : SessionData
  lastActive : Int
deriving DecidableEq

/-- The session cookie lifetime configured in `sessionConfig` (src/app.js
lines 402-411): 30 minutes. -/
def sessionMaxAgeMs : Int := 30 * 60 * 1000

/-- Session resolution by the session middleware configured with
`sessionConfig`: a request whose stored session is absent or older than the
30-minute cookie lifetime is handed a fresh empty session; only the session
record itself lapses, nothing else runs. -/
def resolveSession (now : Int) (stored : Option StoredSession) : SessionData :=
  match stored with
  | none => freshSession
  | some ss =>
    if sessionMaxAgeMs < now - ss.lastActive then freshSession else ss.data

/-! Health check engine. -/

/-- The shape of an axios failure as the per-target catch block reads it: an
optional remote response (status and optional status text), an optional
low-level error code, an optional message. -/
structure ProbeError where
  response : Option (Nat × Option String)
  code : Option String
  message : Option String

/-- The outcomes the health check draws from the outside world: the probe of
each target URL, the result of `Server.find()`, and the results of the
per-target `server.save()` and of the final `log.save()`. -/
structure HealthEnv where
  probe : String → Except ProbeError Unit
  findServers : Except String (List ServerEntry)
  saveServer : String → Except String Unit
  saveLog : Except String Unit

/-- Classification of a failed probe, in the preference order of the source:
remote-reported status (`HTTP <status> <statusText or empty>`), then the
low-level error code, then the error message, then the generic reason. -/
def classifyDown (e : ProbeError) : String :=
  match e.response with
  | some pr => "HTTP " ++ toString pr.1 ++ " " ++ pr.2.getD ""
  | none =>
    if jsTruthy e.code then e.code.getD ""
    else if jsTruthy e.message then e.message.getD ""
    else "Connection failed"

/-- The status recorded for one target: `Up` with the fixed success reason on
a successful probe, `Down` with a classified reason otherwise.  The probe
attempt sits in its own try/catch, so a failing probe is always caught
here. -/
def probeStatus (env : HealthEnv) (srv : ServerEntry) : StatusEntry :=
  match env.probe srv.url with
  | Except.ok _ => ⟨"Up", "OK 200"⟩
  | Except.error e => ⟨"Down", classifyDown e⟩

/-- The per-target loop of `checkServerHealth`: each target is probed and
classified into the statuses object; a failing `server.save()` escapes the
loop (to the outer catch) carrying the statuses accumulated so far. -/
def healthLoop (env : HealthEnv) :
    List ServerEntry → List (String × StatusEntry) →
    List (String × StatusEntry) × Option String
  | [], acc => (acc, none)
  | srv :: rest, acc =>
    let acc1 := objSet acc srv.name (probeStatus env srv)
    match env.saveServer srv.name with
    | Except.ok _ => healthLoop env rest acc1
    | Except.error e => (acc1, some e)

/-- The guest branch of `checkServerHealth`: statuses read off the stored
dataset, with the fixed reasons of the source. -/
def guestStatuses (g : GuestData) : List (String × StatusEntry) :=
  g.servers.foldl
    (fun acc srv =>
      objSet acc srv.name
        ⟨srv.status, if srv.status == "Up" then "OK 200" else "Connection failed"⟩)
    []

/-- Model of `checkServerHealth` (src/app.js lines 597-647).  The whole body
sits in a try/catch that logs and falls through to `return statuses`, so the
function always returns a status mapping: empty when no connection was
supplied in credentialed mode or when `Server.find()` fails, partial when a
`server.save()` fails mid-loop, and complete otherwise (a failing final
`log.save()` is also caught).  The persistence writes themselves are
represented by the outcomes in `HealthEnv`. -/
def checkServerHealth (env : HealthEnv) (now : Int) (sessionId : String)
    (isGuest : Bool) (connection : Option Conn)
    (gstore : List (String × GuestData)) : List (String × StatusEntry) :=
  if isGuest then guestStatuses (getGuestData now sessionId gstore).1
  else
    match connection with
    | none => []
    | some _ =>
      match env.findServers with
      | Except.error _ => []
      | Except.ok servers =>
        match healthLoop env servers [] with
        | (sts, some _) => sts
        | (sts, none) =>
          match env.saveLog with
          | Except.ok _ => sts
          | Except.error _ => sts

/-! Route layer. -/

/-- The pieces of an incoming request the embedded routes read: the
`x-api-key` header, the body fields of the write routes, and the `:name`
route parameter. -/
structure Request where
  apiKeyHeader : Option String
  version : Option String
  name : Option String
  url : Option String
  paramName : String
deriving DecidableEq

/-- The responses the embedded routes produce. -/
inductive Response where
  | jsonMsg (status : Nat) (message : String)
  | redirectTo (location : String)
deriving DecidableEq

/-- Read a backing store by URI; an unseen URI is an empty database. -/
def storeGet (stores : List (String × Db)) (uri : String) : Db :=
  (assocLookup stores uri).getD ⟨[], [], []⟩

/-- The credential bundle committed to the session by the upload route:
required fields as parsed, `RENDER_API_KEY` defaulting to the empty string
and `PORT` to the numeric default. -/
def commitConfig (cfg : List (String × String)) : SessionConfig :=
  { MONGO_URI := some ((assocLookup cfg "MONGO_URI").getD ""),
    API_KEY := (assocLookup cfg "API_KEY").getD "",
    RENDER_API_KEY :=
      if jsTruthy (assocLookup cfg "RENDER_API_KEY") then
        (assocLookup cfg "RENDER_API_KEY").getD ""
      else "",
    PORT :=
      if jsTruthy (assocLookup cfg "PORT") then
        (assocLookup cfg "PORT").getD ""
      else "3000" }

/-- Model of the upload route `POST /upload-env` (src/app.js lines 659-696):
reject a missing file, parse the blob, reject a bundle whose required fields
are falsy, then STORE THE CONFIG AND MODE ON THE SESSION, and only afterwards
test the connection, redirecting to the failure page if the test fails and to
the dashboard otherwise. -/
def uploadEnvRoute (env : Env) (sessionId : String) (file : Option String)
    (s : SessionData) (st : AppState) : Response × SessionData × AppState :=
  match file with
  | none => (Response.redirectTo "/?error=no_file", s, st)
  | some blob =>
    let cfg := parseEnvContent blob
    if jsFalsy (assocLookup cfg "MONGO_URI") || jsFalsy (assocLookup cfg "API_KEY") then
      (Response.redirectTo "/?error=invalid_env", s, st)
    else
      let s1 : SessionData := { config := some (commitConfig cfg), isGuest := some false }
      match getConnection env st sessionId (assocLookup cfg "MONGO_URI") with
      | (Except.error _, st1) => (Response.redirectTo "/?error=db_connection_failed", s1, st1)
      | (Except.ok _, st1) => (Response.redirectTo "/dashboard", s1, st1)

/-- Model of `POST /guest-mode` (src/app.js lines 699-712): commit the guest
configuration and mode and materialize the guest dataset. -/
def guestModeRoute (now : Int) (sessionId : String) (s : SessionData)
    (st : AppState) : Response × SessionData × AppState :=
  let s1 : SessionData := { config := some GUEST_CONFIG, isGuest := some true }
  let g1 := (getGuestData now sessionId st.guestStorage).2
  (Response.redirectTo "/dashboard", s1, { st with guestStorage := g1 })

/-- Model of `GET /logout` (src/app.js lines 715-742): run the cleanup and
redirect home (the stored session is destroyed by the caller of this
cleanup). -/
def logoutRoute (sessionId : String) (st : AppState) : Response × AppState :=
  (Response.redirectTo "/", logoutCleanup sessionId st)

/-- Model of `POST /deploy` (src/app.js lines 764-792): `requireAuth`, then
`authenticate`, then the missing-version check (400), THEN the guest check
(403); in credentialed mode acquire the session connection, set the pipeline
flag, and record an in-progress deployment (the deferred flip to success is
outside the request). -/
def deployRoute (env : Env) (now : Int) (sessionId : String) (req : Request)
    (s : SessionData) (st : AppState) : Response × AppState :=
  match requireAuth s with
  | AuthGate.redirectUploadRequired =>
    (Response.redirectTo "/?error=upload_required", st)
  | AuthGate.proceed =>
    if !(authenticate req.apiKeyHeader s) then
      (Response.jsonMsg 403 "Forbidden: Invalid API Key", st)
    else if jsFalsy req.version then
      (Response.jsonMsg 400 "Version is required", st)
    else if s.isGuest == some true then
      (Response.jsonMsg 403 "Cannot deploy in guest mode", st)
    else
      match s.config with
      | none => (Response.jsonMsg 500 "Deployment failed", st)
      | some c =>
        match getConnection env st sessionId c.MONGO_URI with
        | (Except.error _, st1) => (Response.jsonMsg 500 "Deployment failed", st1)
        | (Except.ok _, st1) =>
          let uri := c.MONGO_URI.getD ""
          let db := storeGet st1.stores uri
          let db1 :=
            { db with deployments :=
                db.deployments ++
                  [⟨req.version.getD "", "in_progress", now, "manual", none, none⟩] }
          (Response.jsonMsg 200 "Deployment triggered",
           { st1 with stores := objSet st1.stores uri db1,
                      pipeline := "in_progress" })

/-- Model of `POST /servers` (src/app.js lines 795-819): `requireAuth`,
`authenticate`, the guest check (403), the missing-fields check (400), then
insertion against the session connection, with the duplicate-name unique
index reported as 409. -/
def serversPostRoute (env : Env) (sessionId : String) (req : Request)
    (s : SessionData) (st : AppState) : Response × AppState :=
  match requireAuth s with
  | AuthGate.redirectUploadRequired =>
    (Response.redirectTo "/?error=upload_required", st)
  | AuthGate.proceed =>
    if !(authenticate req.apiKeyHeader s) then
      (Response.jsonMsg 403 "Forbidden: Invalid API Key", st)
    else if s.isGuest == some true then
      (Response.jsonMsg 403 "Cannot add servers in guest mode", st)
    else if jsFalsy req.name || jsFalsy req.url then
      (Response.jsonMsg 400 "Name and URL are required", st)
    else
      match s.config with
      | none => (Response.jsonMsg 500 "Internal Server Error", st)
      | some c =>
        match getConnection env st sessionId c.MONGO_URI with
        | (Except.error _, st1) => (Response.jsonMsg 500 "Internal Server Error", st1)
        | (Except.ok _, st1) =>
          let uri := c.MONGO_URI.getD ""
          let db := storeGet st1.stores uri
          let nm := req.name.getD ""
          if db.servers.any (fun e => e.name == nm) then
            (Response.jsonMsg 409 "Server with this name already exists", st1)
          else
            let db1 :=
              { db with servers := db.servers ++ [⟨nm, req.url.getD "", "Unknown"⟩] }
            (Response.jsonMsg 201 "Server added",
             { st1 with stores := objSet st1.stores uri db1 })

/-- Model of `DELETE /servers/:name` (src/app.js lines 822-841): ONLY
`requireAuth` guards it (no `authenticate`, the `x-api-key` header is never
read), then the guest check, then `findOneAndDelete` against the session
connection. -/
def serversDeleteRoute (env : Env) (sessionId : String) (req : Request)
    (s : SessionData) (st : AppState) : Response × AppState :=
  match requireAuth s with
  | AuthGate.redirectUploadRequired =>
    (Response.redirectTo "/?error=upload_required", st)
  | AuthGate.proceed =>
    if s.isGuest == some true then
      (Response.jsonMsg 403 "Cannot delete servers in guest mode", st)
    else
      match s.config with
      | none => (Response.jsonMsg 500 "Internal Server Error", st)
      | some c =>
        match getConnection env st sessionId c.MONGO_URI with
        | (Except.error _, st1) => (Response.jsonMsg 500 "Internal Server Error", st1)
        | (Except.ok _, st1) =>
          let uri := c.MONGO_URI.getD ""
          let db := storeGet st1.stores uri
          match db.servers.find? (fun e => e.name == req.paramName) with
          | some _ =>
            let db1 :=
              { db with servers := db.servers.eraseP (fun e => e.name == req.paramName) }
            (Response.jsonMsg 200 "Server removed",
             { st1 with stores := objSet st1.stores uri db1 })
          | none => (Response.jsonMsg 404 "Server not found", st1)

/-- Model of `POST /logs_delete` (src/app.js lines 844-859): `requireAuth`,
`authenticate`, the guest check (403), then `Log.deleteMany` against the
session connection and a redirect to the dashboard. -/
def logsDeleteRoute (env : Env) (sessionId : String) (req : Request)
    (s : SessionData) (st : AppState) : Response × AppState :=
  match requireAuth s with
  | AuthGate.redirectUploadRequired =>
    (Response.redirectTo "/?error=upload_required", st)
  | AuthGate.proceed =>
    if !(authenticate req.apiKeyHeader s) then
      (Response.jsonMsg 403 "Forbidden: Invalid API Key", st)
    else if s.isGuest == some true then
      (Response.jsonMsg 403 "Cannot delete logs in guest mode", st)
    else
      match s.config with
      | none => (Response.jsonMsg 500 "Internal Server Error", st)
      | some c =>
        match getConnection env st sessionId c.MONGO_URI with
        | (Except.error _, st1) => (Response.jsonMsg 500 "Internal Server Error", st1)
        | (Except.ok _, st1) =>
          let uri := c.MONGO_URI.getD ""
          let db := storeGet st1.stores uri
          (Response.redirectTo "/dashboard",
           { st1 with stores := objSet st1.stores uri { db with logs := [] } })

/-- Model of `POST /webhooks/render` (src/app.js lines 864-879): the
multi-tenant revision only logs the payload and acknowledges receipt; webhook
storage is disabled, so no record is written anywhere and no state is
touched. -/
def webhooksRenderRoute (payload : String) (st : AppState) :
    Response × AppState :=
  (Response.jsonMsg 200 "Webhook received", st)

/-- N sequential `getConnection` acquisitions for a fixed session and address,
each starting from the state the previous one left. -/
def acquireIter (env : Env) (sid : String) (uri : Option String) :
    Nat → AppState → AppState
  | 0, st => st
  | n + 1, st => acquireIter env sid uri n (getConnection env st sid uri).2

/-! Concrete fixtures used to instantiate the theorems below. -/

/-- An environment where every handle is live and every address accepts a
connection. -/
def okEnv : Env := ⟨fun _ => true, fun _ => true⟩

/-- An environment where no address accepts a connection. -/
def envNoConnect : Env := ⟨fun _ => true, fun _ => false⟩

/-- A request with no header, body fields or route parameter. -/
def reqEmpty : Request := ⟨none, none, none, none, ""⟩

/-- A guest request carrying the guest API key but no version field. -/
def guestReqNoVersion : Request :=
  ⟨some "guest-api-key-12345", none, none, none, ""⟩

/-- A session activated in guest mode. -/
def guestSessionW : SessionData := ⟨some GUEST_CONFIG, some true⟩

/-- A state holding the resources of session `s1`: its guest dataset and one
pool entry. -/
def stWithGuestResources : AppState :=
  { guestStorage := [("s1", guestSeed 0)], pool := [("s1:db", ⟨0⟩)],
    nextId := 1, created := 1, stores := [], pipeline := "success" }

/-- A health environment with two registered targets of which the first
probe fails with a low-level connection error. -/
def healthEnvW : HealthEnv :=
  ⟨fun url =>
      if url == "http://a" then Except.error ⟨none, some "ECONNREFUSED", none⟩
      else Except.ok (),
   Except.ok [⟨"a-srv", "http://a", "Unknown"⟩, ⟨"b-srv", "http://b", "Unknown"⟩],
   fun _ => Except.ok (), Except.ok ()⟩

/-- A credentialed session bound to the address `db`. -/
def sessW : SessionData := ⟨some ⟨some "db", "k", "", "3000"⟩, some false⟩

/-- A state whose `db` store holds one registered target `srv1`. -/
def stW : AppState :=
  { initialState with stores := [("db", ⟨[⟨"srv1", "http://x", "Up"⟩], [], []⟩)] }

/-! Helper lemmas. -/

/-- Lookup distributes over appending association lists: the left list wins
when it binds the key. -/
theorem lemAssocLookupAppend {α : Type} (l1 l2 : List (String × α))
    (k : String) :
    assocLookup (l1 ++ l2) k
      = match assocLookup l1 k with
        | some v => some v
        | none => assocLookup l2 k := by
  induction l1 with
  | nil => simp [assocLookup]
  | cons e t ih =>
    by_cases he : (e.1 == k) = true
    · simp only [assocLookup, List.cons_append]
      rw [@List.find?_cons_of_pos _ (fun x => x.1 == k) e (t ++ l2) he,
        @List.find?_cons_of_pos _ (fun x => x.1 == k) e t he]
      simp
    · simp only [assocLookup, List.cons_append]
      rw [@List.find?_cons_of_neg _ (fun x => x.1 == k) e (t ++ l2) he,
        @List.find?_cons_of_neg _ (fun x => x.1 == k) e t he]
      exact ih

/-- A lookup after a key-dependent filter: the filter leaves lookups of keys
it keeps untouched and erases the rest. -/
theorem lemAssocLookupFilter {α : Type} (p : String → Bool)
    (l : List (String × α)) (k : String) :
    assocLookup (l.filter (fun e => p e.1)) k
      = if p k then assocLookup l k else none := by
  induction l with
  | nil => simp [assocLookup]
  | cons e t ih =>
    unfold assocLookup at ih ⊢
    by_cases hp : p e.1 = true
    · rw [show List.filter (fun e => p e.1) (e :: t)
          = e :: List.filter (fun e => p e.1) t by simp [List.filter_cons, hp]]
      by_cases he : (e.1 == k) = true
      · have hek : e.1 = k := by simpa using he
        rw [@List.find?_cons_of_pos _ (fun x => x.1 == k) e
            (List.filter (fun e => p e.1) t) he,
          @List.find?_cons_of_pos _ (fun x => x.1 == k) e t he,
          if_pos (hek ▸ hp)]
      · rw [@List.find?_cons_of_neg _ (fun x => x.1 == k) e
            (List.filter (fun e => p e.1) t) he,
          @List.find?_cons_of_neg _ (fun x => x.1 == k) e t he]
        exact ih
    · rw [show List.filter (fun e => p e.1) (e :: t)
          = List.filter (fun e => p e.1) t by simp [List.filter_cons, hp]]
      by_cases he : (e.1 == k) = true
      · have hek : e.1 = k := by simpa using he
        have hpk : p k = false := by
          rw [← hek]; exact Bool.eq_false_iff.mpr hp
        rw [ih, hpk]
        simp
      · rw [ih]
        by_cases hpk : p k = true
        · rw [if_pos hpk, if_pos hpk,
            @List.find?_cons_of_neg _ (fun x => x.1 == k) e t he]
        · rw [if_neg (by simp [hpk]), if_neg (by simp [hpk])]

/-- Setting a key makes it the binding the lookup finds. -/
theorem lemAssocLookupObjSetSelf {α : Type} (l : List (String × α))
    (k : String) (v : α) : assocLookup (objSet l k v) k = some v := by
  unfold objSet
  rw [lemAssocLookupAppend]
  rw [show (fun e : String × α => !(e.1 == k)) = (fun e : String × α => (fun x => !(x == k)) e.1) from rfl]
  rw [lemAssocLookupFilter (fun x => !(x == k)) l k]
  simp [assocLookup]

/-- Setting one key leaves lookups of other keys unchanged. -/
theorem lemAssocLookupObjSetOther {α : Type} (l : List (String × α))
    (k k2 : String) (v : α) (h : k ≠ k2) :
    assocLookup (objSet l k v) k2 = assocLookup l k2 := by
  unfold objSet
  rw [lemAssocLookupAppend]
  rw [show (fun e : String × α => !(e.1 == k)) = (fun e : String × α => (fun x => !(x == k)) e.1) from rfl]
  rw [lemAssocLookupFilter (fun x => !(x == k)) l k2]
  have hk2 : (k2 == k) = false := beq_eq_false_iff_ne.mpr (Ne.symm h)
  rw [hk2]
  simp only [Bool.not_false, if_true]
  match hm : assocLookup l k2 with
  | some v2 => simp
  | none => simp [assocLookup, beq_eq_false_iff_ne.mpr h]

/-- Composite keys with the same address but different session identities are
different (the injectivity direction the registry keying relies on). -/
theorem lemConnectionKeyInj (A B u : String) (h : A ≠ B) :
    connectionKey A u ≠ connectionKey B u := by
  intro he
  apply h
  have hd := congrArg String.data he
  unfold connectionKey at hd
  rw [String.data_append, String.data_append, String.data_append,
    String.data_append] at hd
  apply String.ext
  exact List.append_cancel_right (List.append_cancel_right hd)

/-- The falsiness test on a present, nonempty string is false. -/
theorem lemJsFalsySomeNe (u : String) (hu : u ≠ "") :
    jsFalsy (some u) = false := by
  simp [jsFalsy, jsTruthy, beq_eq_false_iff_ne.mpr hu]

/-- The cached-reuse path of `getConnection`: with a live cached handle under
the composite key the call returns that handle and changes nothing. -/
theorem lemGetConnCached (env : Env) (st : AppState) (sid uri : String)
    (c : Conn) (hs : sid ≠ "") (hu : uri ≠ "")
    (hl : assocLookup st.pool (connectionKey sid uri) = some c)
    (hlive : env.live c.id = true) :
    getConnection env st sid (some uri) = (Except.ok c, st) := by
  unfold getConnection
  rw [show (sid == "") = false from beq_eq_false_iff_ne.mpr hs,
    lemJsFalsySomeNe uri hu]
  simp only [Bool.or_self, Option.getD_some]
  rw [hl]
  simp [hlive]

/-- The creation path of `getConnection`: no cached entry and an address that
accepts a connection yield a fresh cached handle and advance the serial and
the creation counter. -/
theorem lemGetConnCreate (env : Env) (st : AppState) (sid uri : String)
    (hs : sid ≠ "") (hu : uri ≠ "")
    (hl : assocLookup st.pool (connectionKey sid uri) = none)
    (hok : env.connectOk uri = true) :
    getConnection env st sid (some uri)
      = (Except.ok ⟨st.nextId⟩,
         { st with pool := objSet st.pool (connectionKey sid uri) ⟨st.nextId⟩,
                   nextId := st.nextId + 1, created := st.created + 1 }) := by
  unfold getConnection
  rw [show (sid == "") = false from beq_eq_false_iff_ne.mpr hs,
    lemJsFalsySomeNe uri hu]
  simp only [Bool.or_self, Option.getD_some]
  rw [hl]
  unfold createConnection
  simp [hok]

/-- The creation-failure path of `getConnection`: no cached entry and an
address that refuses the connection propagate the failure and cache
nothing. -/
theorem lemGetConnFail (env : Env) (st : AppState) (sid uri : String)
    (hs : sid ≠ "") (hu : uri ≠ "")
    (hl : assocLookup st.pool (connectionKey sid uri) = none)
    (hok : env.connectOk uri = false) :
    getConnection env st sid (some uri)
      = (Except.error "MongoDB connection error", st) := by
  unfold getConnection
  rw [show (sid == "") = false from beq_eq_false_iff_ne.mpr hs,
    lemJsFalsySomeNe uri hu]
  simp only [Bool.or_self, Option.getD_some]
  rw [hl]
  unfold createConnection
  simp [hok]

/-- A state that an acquisition leaves unchanged is a fixed point of any
number of repeated acquisitions. -/
theorem lemAcquireIterFixed (env : Env) (sid : String) (u : Option String)
    (st : AppState) (h : (getConnection env st sid u).2 = st) :
    ∀ n, acquireIter env sid u n st = st := by
  intro n
  induction n with
  | zero => rfl
  | succ n ih =>
    show acquireIter env sid u n (getConnection env st sid u).2 = st
    rw [h]
    exact ih

/-- C4: for a session and address whose cached registry entry passes the
liveness check, every acquisition returns that exact cached handle with the
state unchanged, and N sequential acquisitions starting from a fresh pair
perform exactly one connection creation (the creation counter advances by
one and then stays put). -/
theorem acquire_single_creation :
    ∀ (env : Env) (sid uri : String), sid ≠ "" → uri ≠ "" →
      (∀ (st : AppState) (c : Conn),
        assocLookup st.pool (connectionKey sid uri) = some c →
        env.live c.id = true →
        getConnection env st sid (some uri) = (Except.ok c, st)
          ∧ ∀ n, acquireIter env sid (some uri) n st = st)
      ∧ (∀ (st0 : AppState),
        assocLookup st0.pool (connectionKey sid uri) = none →
        env.connectOk uri = true →
        env.live st0.nextId = true →
        ∀ n, (acquireIter env sid (some uri) (n + 1) st0).created
              = st0.created + 1) := by
  intro env sid uri hs hu
  constructor
  · intro st c hl hlive
    have hg := lemGetConnCached env st sid uri c hs hu hl hlive
    exact ⟨hg, lemAcquireIterFixed env sid (some uri) st (by rw [hg])⟩
  · intro st0 hl hok hlive n
    have hg := lemGetConnCreate env st0 sid uri hs hu hl hok
    have hcached : assocLookup
        (objSet st0.pool (connectionKey sid uri) (⟨st0.nextId⟩ : Conn))
        (connectionKey sid uri) = some ⟨st0.nextId⟩ :=
      lemAssocLookupObjSetSelf _ _ _
    have hfix := lemAcquireIterFixed env sid (some uri)
      { st0 with pool := objSet st0.pool (connectionKey sid uri) ⟨st0.nextId⟩,
                 nextId := st0.nextId + 1, created := st0.created + 1 }
      (by
        rw [lemGetConnCached env
          { st0 with pool := objSet st0.pool (connectionKey sid uri) ⟨st0.nextId⟩,
                     nextId := st0.nextId + 1, created := st0.created + 1 }
          sid uri ⟨st0.nextId⟩ hs hu hcached hlive])
    have hstep : acquireIter env sid (some uri) (n + 1) st0
        = acquireIter env sid (some uri) n (getConnection env st0 sid (some uri)).2 :=
      rfl
    rw [hstep, hg]
    show (acquireIter env sid (some uri) n
      { st0 with pool := objSet st0.pool (connectionKey sid uri) ⟨st0.nextId⟩,
                 nextId := st0.nextId + 1, created := st0.created + 1 }).created
      = st0.created + 1
    rw [hfix n]

/-- Witness for C4 at a concrete session, address and state: three sequential
acquisitions starting from the empty pool leave the creation counter at
one. -/
theorem acquire_single_creation_witness :
    (acquireIter okEnv "s" (some "db") 3 initialState).created
      = initialState.created + 1 :=
  (acquire_single_creation okEnv "s" "db" (by decide) (by decide)).2
    initialState (by decide) rfl rfl 2

/-- C9: every request to the webhook endpoint is acknowledged with status 200
and leaves the entire application state (backing stores, guest datasets,
pool, pipeline flag) unchanged: webhook-originated deployment events are not
recorded in the multi-tenant implementation. -/
theorem webhook_ack_leaves_state_unchanged :
    ∀ (payload : String) (st : AppState),
      webhooksRenderRoute payload st
        = (Response.jsonMsg 200 "Webhook received", st) :=
  fun _ _ => rfl

/-- C3 (amended): for every session in guest mode, each of the four
tenant-write operations fails and leaves the whole state (guest datasets and
backing stores included) unchanged; the failure is a 403 forbidden
classification in every case except a deployment request whose version field
is missing or empty after passing the API-key check, which fails with 400. -/
theorem guest_writes_rejected_unmutated :
    ∀ (env : Env) (now : Int) (sid : String) (req : Request) (s : SessionData)
      (st : AppState), s.isGuest = some true →
      (deployRoute env now sid req s st
          = (Response.jsonMsg 403 "Forbidden: Invalid API Key", st)
        ∨ deployRoute env now sid req s st
          = (Response.jsonMsg 400 "Version is required", st)
        ∨ deployRoute env now sid req s st
          = (Response.jsonMsg 403 "Cannot deploy in guest mode", st))
      ∧ (serversPostRoute env sid req s st
          = (Response.jsonMsg 403 "Forbidden: Invalid API Key", st)
        ∨ serversPostRoute env sid req s st
          = (Response.jsonMsg 403 "Cannot add servers in guest mode", st))
      ∧ serversDeleteRoute env sid req s st
          = (Response.jsonMsg 403 "Cannot delete servers in guest mode", st)
      ∧ (logsDeleteRoute env sid req s st
          = (Response.jsonMsg 403 "Forbidden: Invalid API Key", st)
        ∨ logsDeleteRoute env sid req s st
          = (Response.jsonMsg 403 "Cannot delete logs in guest mode", st)) := by
  intro env now sid req s st hg
  have hga : requireAuth s = AuthGate.proceed := by
    simp [requireAuth, hg]
  have hgt : (s.isGuest == some true) = true := by simp [hg]
  cases hauth : authenticate req.apiKeyHeader s
  · refine ⟨Or.inl ?_, Or.inl ?_, ?_, Or.inl ?_⟩ <;>
      simp [deployRoute, serversPostRoute, serversDeleteRoute, logsDeleteRoute,
        hga, hauth, hgt]
  · by_cases hv : jsFalsy req.version = true
    · refine ⟨Or.inr (Or.inl ?_), Or.inr ?_, ?_, Or.inr ?_⟩ <;>
        simp [deployRoute, serversPostRoute, serversDeleteRoute, logsDeleteRoute,
          hga, hauth, hgt, hv]
    · have hv2 : jsFalsy req.version = false := by
        simpa using hv
      refine ⟨Or.inr (Or.inr ?_), Or.inr ?_, ?_, Or.inr ?_⟩ <;>
        simp [deployRoute, serversPostRoute, serversDeleteRoute, logsDeleteRoute,
          hga, hauth, hgt, hv2]

/-- Counterexample for C3 as frozen: a guest session presenting the correct
guest API key but no version field receives status 400 from the deployment
route, not a 403 forbidden classification. -/
theorem guest_deploy_missing_version_cex :
    deployRoute okEnv 0 "sid" guestReqNoVersion guestSessionW initialState
      = (Response.jsonMsg 400 "Version is required", initialState)
    ∧ ∀ m : String,
        (Response.jsonMsg 400 "Version is required" : Response)
          ≠ Response.jsonMsg 403 m := by
  refine ⟨by decide, ?_⟩
  intro m
  simp

/-- C10: the delete-server route is guarded only by `requireAuth`: its result
never depends on the `x-api-key` header, and for a credentialed session it
proceeds to the deletion whatever key (or none) the request presents —
unlike `POST /servers` and `POST /logs_delete`, which reject a mismatched key
with 403 through the `authenticate` middleware. -/
theorem serversDelete_skips_authenticate :
    ∀ (env : Env) (sid : String) (s : SessionData) (st : AppState)
      (k1 k2 vb1 vb2 nb1 nb2 ub1 ub2 : Option String) (pn : String),
      serversDeleteRoute env sid ⟨k1, vb1, nb1, ub1, pn⟩ s st
        = serversDeleteRoute env sid ⟨k2, vb2, nb2, ub2, pn⟩ s st
      ∧ (∀ (c : SessionConfig) (uri : String) (cn : Conn) (st1 : AppState),
          s.isGuest = some false → s.config = some c → c.MONGO_URI = some uri →
          getConnection env st sid (some uri) = (Except.ok cn, st1) →
          (∃ srv, (storeGet st1.stores uri).servers.find?
              (fun e => e.name == pn) = some srv) →
          (serversDeleteRoute env sid ⟨k1, vb1, nb1, ub1, pn⟩ s st).1
            = Response.jsonMsg 200 "Server removed")
      ∧ (∀ (req : Request), requireAuth s = AuthGate.proceed →
          authenticate req.apiKeyHeader s = false →
          serversPostRoute env sid req s st
            = (Response.jsonMsg 403 "Forbidden: Invalid API Key", st)
          ∧ logsDeleteRoute env sid req s st
            = (Response.jsonMsg 403 "Forbidden: Invalid API Key", st)) := by
  intro env sid s st k1 k2 vb1 vb2 nb1 nb2 ub1 ub2 pn
  refine ⟨rfl, ?_, ?_⟩
  · rintro c uri cn st1 hg hc hu hconn ⟨srv, hfind⟩
    have hga : requireAuth s = AuthGate.proceed := by
      simp [requireAuth, hg, hc]
    have hgf : (s.isGuest == some true) = false := by simp [hg]
    simp only [serversDeleteRoute, hga]
    rw [hgf]
    simp only [Bool.false_eq_true, if_false]
    rw [hc]
    simp only
    rw [hu, hconn]
    simp only [Option.getD_some]
    rw [hfind]
  · intro req hga hauth
    constructor <;>
      simp [serversPostRoute, logsDeleteRoute, hga, hauth]

/-- Witness for C10: with a credentialed session and a store holding the
target, the delete route succeeds although the request presents a wrong API
key. -/
theorem serversDelete_skips_authenticate_witness :
    (serversDeleteRoute okEnv "sid"
        ⟨some "totally-wrong-key", none, none, none, "srv1"⟩ sessW stW).1
      = Response.jsonMsg 200 "Server removed" :=
  (serversDelete_skips_authenticate okEnv "sid" sessW stW
      (some "totally-wrong-key") none none none none none none none "srv1").2.1
    ⟨some "db", "k", "", "3000"⟩ "db" ⟨0⟩
    { stW with pool := objSet stW.pool "sid:db" ⟨0⟩, nextId := 1, created := 1 }
    rfl rfl rfl rfl ⟨⟨"srv1", "http://x", "Up"⟩, by decide⟩

/-- C2 (amended): the upload route's validation failures (no file, falsy
required field) leave the session record unchanged, but a failure of the
eager connection test does NOT leave it unchanged: the parsed config and the
credentialed mode flag are committed to the session before the test, so after
the classified failure `requireAuth` accepts the session. -/
theorem uploadEnv_failure_behavior :
    ∀ (env : Env) (sid : String) (s : SessionData) (st : AppState),
      uploadEnvRoute env sid none s st
        = (Response.redirectTo "/?error=no_file", s, st)
      ∧ (∀ blob,
          (jsFalsy (assocLookup (parseEnvContent blob) "MONGO_URI")
            || jsFalsy (assocLookup (parseEnvContent blob) "API_KEY")) = true →
          uploadEnvRoute env sid (some blob) s st
            = (Response.redirectTo "/?error=invalid_env", s, st))
      ∧ (∀ (blob uri : String),
          assocLookup (parseEnvContent blob) "MONGO_URI" = some uri →
          uri ≠ "" →
          jsTruthy (assocLookup (parseEnvContent blob) "API_KEY") = true →
          sid ≠ "" →
          assocLookup st.pool (connectionKey sid uri) = none →
          env.connectOk uri = false →
          uploadEnvRoute env sid (some blob) s st
            = (Response.redirectTo "/?error=db_connection_failed",
               ⟨some (commitConfig (parseEnvContent blob)), some false⟩, st)
          ∧ requireAuth
              ⟨some (commitConfig (parseEnvContent blob)), some false⟩
              = AuthGate.proceed) := by
  intro env sid s st
  refine ⟨rfl, ?_, ?_⟩
  · intro blob hfal
    simp only [uploadEnvRoute]
    rw [hfal]
    simp
  · intro blob uri hm hu hk hsid hpool hcf
    have hfal : (jsFalsy (assocLookup (parseEnvContent blob) "MONGO_URI")
        || jsFalsy (assocLookup (parseEnvContent blob) "API_KEY")) = false := by
      rw [hm, lemJsFalsySomeNe uri hu]
      simp [jsFalsy, hk]
    refine ⟨?_, by simp [requireAuth]⟩
    simp only [uploadEnvRoute]
    rw [hfal]
    simp only [Bool.false_eq_true, if_false]
    rw [hm, lemGetConnFail env st sid uri hsid hu hpool hcf]

/-- Counterexample for C2 as frozen: with a valid bundle but an unreachable
backing store, the upload route returns the connection-failure redirect while
the session has already been committed, and `requireAuth` then accepts it. -/
theorem uploadEnv_partial_commit_cex :
    uploadEnvRoute envNoConnect "sid" (some "MONGO_URI=db://x\nAPI_KEY=k1\n")
        freshSession initialState
      = (Response.redirectTo "/?error=db_connection_failed",
         ⟨some ⟨some "db://x", "k1", "", "3000"⟩, some false⟩, initialState)
    ∧ (⟨some ⟨some "db://x", "k1", "", "3000"⟩, some false⟩ : SessionData)
        ≠ freshSession
    ∧ requireAuth ⟨some ⟨some "db://x", "k1", "", "3000"⟩, some false⟩
        = AuthGate.proceed := by
  refine ⟨by decide, by decide, by decide⟩

/-- C5: a blob whose parse lacks the backing-store address or the access key
makes the upload route fail with the invalid-bundle redirect, stores nothing
on the (fresh) session, and `requireAuth` still rejects the session. -/
theorem invalid_bundle_leaves_unauthenticated :
    ∀ (env : Env) (sid blob : String) (s : SessionData) (st : AppState),
      s = freshSession →
      (assocLookup (parseEnvContent blob) "MONGO_URI" = none
        ∨ assocLookup (parseEnvContent blob) "API_KEY" = none) →
      uploadEnvRoute env sid (some blob) s st
        = (Response.redirectTo "/?error=invalid_env", s, st)
      ∧ requireAuth s = AuthGate.redirectUploadRequired := by
  intro env sid blob s st hs hmiss
  have hfal : (jsFalsy (assocLookup (parseEnvContent blob) "MONGO_URI")
      || jsFalsy (assocLookup (parseEnvContent blob) "API_KEY")) = true := by
    rcases hmiss with h | h <;> simp [jsFalsy, jsTruthy, h]
  refine ⟨?_, ?_⟩
  · simp only [uploadEnvRoute]
    rw [hfal]
    simp
  · rw [hs]
    decide

/-- Witness for C5 at a concrete blob lacking the backing-store address. -/
theorem invalid_bundle_witness :
    uploadEnvRoute okEnv "sid" (some "API_KEY=k\n") freshSession initialState
      = (Response.redirectTo "/?error=invalid_env", freshSession, initialState)
    ∧ requireAuth freshSession = AuthGate.redirectUploadRequired :=
  invalid_bundle_leaves_unauthenticated okEnv "sid" "API_KEY=k\n" freshSession
    initialState rfl (Or.inl (by decide))

/-- C6 (amended): a request whose stored session is older than the 30-minute
window is handed a fresh empty session, so `requireAuth` treats it as
unauthenticated and protected routes redirect; but NO logout-equivalent
cleanup runs for it — the request path leaves the application state exactly
as it was, so the session's guest dataset and pool entries persist. -/
theorem idle_expiry_unauthenticated_no_cleanup :
    ∀ (now : Int) (ss : StoredSession),
      sessionMaxAgeMs < now - ss.lastActive →
      requireAuth (resolveSession now (some ss))
        = AuthGate.redirectUploadRequired
      ∧ ∀ (env : Env) (nw : Int) (sid : String) (req : Request)
          (st : AppState),
          deployRoute env nw sid req (resolveSession now (some ss)) st
            = (Response.redirectTo "/?error=upload_required", st) := by
  intro now ss h
  have hres : resolveSession now (some ss) = freshSession := by
    simp [resolveSession, if_pos h]
  rw [hres]
  have hra : requireAuth freshSession = AuthGate.redirectUploadRequired := by
    decide
  exact ⟨hra, fun env nw sid req st => by simp [deployRoute, hra]⟩

/-- Witness for C6 at a session stale by 31 minutes. -/
theorem idle_expiry_witness :
    requireAuth (resolveSession (31 * 60 * 1000)
        (some ⟨⟨some GUEST_CONFIG, some true⟩, 0⟩))
      = AuthGate.redirectUploadRequired :=
  (idle_expiry_unauthenticated_no_cleanup (31 * 60 * 1000)
    ⟨⟨some GUEST_CONFIG, some true⟩, 0⟩ (by decide)).1

/-- Counterexample for C6 as frozen: after expiry the request is redirected
with the state untouched, yet the state still differs from what the logout
cleanup would produce — the guest dataset and the pool entry of the expired
session persist, so no cleanup equivalent to logout was triggered. -/
theorem idle_expiry_no_logout_cleanup_cex :
    deployRoute okEnv 0 "s1" reqEmpty
        (resolveSession (31 * 60 * 1000)
          (some ⟨⟨some GUEST_CONFIG, some true⟩, 0⟩))
        stWithGuestResources
      = (Response.redirectTo "/?error=upload_required", stWithGuestResources)
    ∧ stWithGuestResources ≠ logoutCleanup "s1" stWithGuestResources := by
  exact ⟨by decide, by decide⟩

/-- C1 (amended): the registry is keyed by the composite of session identity
and address, so two distinct sessions acquiring the same address get two
distinct entries holding two distinct handles; and session A's logout leaves
session B's entry in place PROVIDED A's identity is not a string prefix of
B's composite key — the source removes every pool entry whose key merely
starts with the identity, not only the entries of that session. -/
theorem registry_isolation_amended :
    ∀ (A B u : String), A ≠ B →
      connectionKey A u ≠ connectionKey B u
      ∧ (∀ (st : AppState) (cB : Conn),
          (connectionKey B u).data.take A.data.length ≠ A.data →
          assocLookup st.pool (connectionKey B u) = some cB →
          assocLookup (logoutCleanup A st).pool (connectionKey B u) = some cB)
      ∧ (∀ (env : Env) (st0 : AppState), A ≠ "" → B ≠ "" → u ≠ "" →
          env.connectOk u = true →
          assocLookup st0.pool (connectionKey A u) = none →
          assocLookup st0.pool (connectionKey B u) = none →
          ∀ (rA : Except String Conn) (stA : AppState)
            (rB : Except String Conn) (stB : AppState),
            getConnection env st0 A (some u) = (rA, stA) →
            getConnection env stA B (some u) = (rB, stB) →
            ∃ ca cb : Conn,
              assocLookup stB.pool (connectionKey A u) = some ca
              ∧ assocLookup stB.pool (connectionKey B u) = some cb
              ∧ ca ≠ cb) := by
  intro A B u hAB
  have hK : connectionKey A u ≠ connectionKey B u := lemConnectionKeyInj A B u hAB
  refine ⟨hK, ?_, ?_⟩
  · intro st cB hpre hl
    unfold logoutCleanup
    rw [show (fun e : String × Conn =>
          !(e.1.data.take A.data.length == A.data))
        = (fun e : String × Conn =>
          (fun x => !(x.data.take A.data.length == A.data)) e.1) from rfl]
    rw [lemAssocLookupFilter
      (fun x => !(x.data.take A.data.length == A.data)) st.pool
      (connectionKey B u)]
    rw [show (!((connectionKey B u).data.take A.data.length == A.data)) = true by
      rw [beq_eq_false_iff_ne.mpr hpre]
      rfl]
    simpa using hl
  · intro env st0 hA hB hu hok hlA hlB rA stA rB stB h1 h2
    have hg1 := lemGetConnCreate env st0 A u hA hu hlA hok
    obtain ⟨hr1, hst1⟩ := Prod.mk.inj (hg1.symm.trans h1)
    have hlB1 : assocLookup stA.pool (connectionKey B u) = none := by
      rw [← hst1]
      simpa [lemAssocLookupObjSetOther st0.pool (connectionKey A u)
        (connectionKey B u) (⟨st0.nextId⟩ : Conn) hK] using hlB
    have hg2 := lemGetConnCreate env stA B u hB hu hlB1 hok
    obtain ⟨hr2, hst2⟩ := Prod.mk.inj (hg2.symm.trans h2)
    refine ⟨⟨st0.nextId⟩, ⟨stA.nextId⟩, ?_, ?_, ?_⟩
    · rw [← hst2]
      show assocLookup
        (objSet stA.pool (connectionKey B u) ⟨stA.nextId⟩)
        (connectionKey A u) = some ⟨st0.nextId⟩
      rw [lemAssocLookupObjSetOther stA.pool (connectionKey B u)
        (connectionKey A u) (⟨stA.nextId⟩ : Conn) (Ne.symm hK)]
      rw [← hst1]
      exact lemAssocLookupObjSetSelf st0.pool (connectionKey A u) ⟨st0.nextId⟩
    · rw [← hst2]
      exact lemAssocLookupObjSetSelf stA.pool (connectionKey B u) ⟨stA.nextId⟩
    · have hn : stA.nextId = st0.nextId + 1 := by rw [← hst1]
      intro hcc
      have := congrArg Conn.id hcc
      simp only at this
      omega

/-- Witness for C1 at concrete identities where neither is a prefix of the
other's key: the logout of `a` leaves `s1`'s entry untouched. -/
theorem registry_isolation_witness :
    assocLookup (logoutCleanup "a" stWithGuestResources).pool
        (connectionKey "s1" "db") = some ⟨0⟩ :=
  (registry_isolation_amended "a" "s1" "db" (by decide)).2.1
    stWithGuestResources ⟨0⟩ (by decide) (by decide)

/-- Counterexample for C1 as frozen: session identity `s1` is a string prefix
of `s12`, so after both sessions acquire the same address, `s1`'s logout also
removes `s12`'s registry entry. -/
theorem logout_removes_other_sessions_entry_cex :
    assocLookup ((getConnection okEnv
        (getConnection okEnv initialState "s1" (some "db")).2
        "s12" (some "db")).2).pool (connectionKey "s12" "db")
      = some ⟨1⟩
    ∧ assocLookup (logoutCleanup "s1"
        (getConnection okEnv
          (getConnection okEnv initialState "s1" (some "db")).2
          "s12" (some "db")).2).pool (connectionKey "s12" "db")
      = none
    ∧ "s1" ≠ "s12" := by
  refine ⟨by decide, by decide, by decide⟩

/-- With every per-target save succeeding, the health loop classifies every
target and never escapes to the outer catch. -/
theorem lemHealthLoopAllSaves (env : HealthEnv)
    (hsave : ∀ nm, env.saveServer nm = Except.ok ()) :
    ∀ (servers : List ServerEntry) (acc : List (String × StatusEntry)),
      healthLoop env servers acc
        = (servers.foldl (fun a s => objSet a s.name (probeStatus env s)) acc,
           none) := by
  intro servers
  induction servers with
  | nil => intro acc; rfl
  | cons s0 rest ih =>
    intro acc
    show (match env.saveServer s0.name with
      | Except.ok _ => healthLoop env rest (objSet acc s0.name (probeStatus env s0))
      | Except.error e => (objSet acc s0.name (probeStatus env s0), some e))
      = _
    rw [hsave s0.name]
    exact ih (objSet acc s0.name (probeStatus env s0))

/-- The status fold never disturbs keys outside the processed targets. -/
theorem lemFoldlPreserve (env : HealthEnv) :
    ∀ (servers : List ServerEntry) (acc : List (String × StatusEntry))
      (nm : String), (∀ s ∈ servers, s.name ≠ nm) →
      assocLookup
        (servers.foldl (fun a s => objSet a s.name (probeStatus env s)) acc) nm
        = assocLookup acc nm := by
  intro servers
  induction servers with
  | nil => intro acc nm _; rfl
  | cons s0 rest ih =>
    intro acc nm hne
    show assocLookup
      (rest.foldl (fun a s => objSet a s.name (probeStatus env s))
        (objSet acc s0.name (probeStatus env s0))) nm = _
    rw [ih (objSet acc s0.name (probeStatus env s0)) nm
      (fun s hs => hne s (List.mem_cons_of_mem s0 hs))]
    exact lemAssocLookupObjSetOther acc s0.name nm (probeStatus env s0)
      (hne s0 (List.mem_cons_self s0 rest))

/-- With pairwise distinct target names (the unique index of the schema),
every target ends bound to its own classification in the fold result. -/
theorem lemFoldlLookup (env : HealthEnv) :
    ∀ (servers : List ServerEntry) (acc : List (String × StatusEntry)),
      (servers.map ServerEntry.name).Nodup →
      ∀ srv ∈ servers,
        assocLookup
          (servers.foldl (fun a s => objSet a s.name (probeStatus env s)) acc)
          srv.name
          = some (probeStatus env srv) := by
  intro servers
  induction servers with
  | nil => intro acc _ srv hmem; cases hmem
  | cons s0 rest ih =>
    intro acc hnodup srv hmem
    have hnd : (∀ x ∈ rest, ¬ x.name = s0.name)
        ∧ (rest.map ServerEntry.name).Nodup := by simpa using hnodup
    rcases List.mem_cons.mp hmem with heq | hmem2
    · subst heq
      show assocLookup
        (rest.foldl (fun a s => objSet a s.name (probeStatus env s))
          (objSet acc srv.name (probeStatus env srv))) srv.name = _
      rw [lemFoldlPreserve env rest
        (objSet acc srv.name (probeStatus env srv)) srv.name
        (fun s hs => hnd.1 s hs)]
      exact lemAssocLookupObjSetSelf acc srv.name (probeStatus env srv)
    · exact ih (objSet acc s0.name (probeStatus env s0)) hnd.2 srv hmem2

/-- C8: the health check never propagates a failure: in credentialed mode
with no connection, or when fetching the target list fails, it returns the
empty mapping instead of throwing; and a probe failure for one target is
caught per-target, so with the saves succeeding every registered target ends
up probed and classified regardless of the other targets' outcomes. -/
theorem checkServerHealth_resilient :
    ∀ (env : HealthEnv) (now : Int) (sid : String)
      (gstore : List (String × GuestData)),
      checkServerHealth env now sid false none gstore = []
      ∧ (∀ (c : Conn) (msg : String), env.findServers = Except.error msg →
          checkServerHealth env now sid false (some c) gstore = [])
      ∧ (∀ (c : Conn) (servers : List ServerEntry),
          env.findServers = Except.ok servers →
          (∀ nm, env.saveServer nm = Except.ok ()) →
          (servers.map ServerEntry.name).Nodup →
          ∀ srv ∈ servers,
            assocLookup
              (checkServerHealth env now sid false (some c) gstore) srv.name
              = some (probeStatus env srv)) := by
  intro env now sid gstore
  refine ⟨rfl, ?_, ?_⟩
  · intro c msg herr
    show (match env.findServers with
      | Except.error _ => ([] : List (String × StatusEntry))
      | Except.ok servers =>
        match healthLoop env servers [] with
        | (sts, some _) => sts
        | (sts, none) =>
          match env.saveLog with
          | Except.ok _ => sts
          | Except.error _ => sts) = []
    rw [herr]
  · intro c servers hfind hsave hnodup srv hmem
    have hrun : checkServerHealth env now sid false (some c) gstore
        = servers.foldl (fun a s => objSet a s.name (probeStatus env s)) [] := by
      show (match env.findServers with
        | Except.error _ => ([] : List (String × StatusEntry))
        | Except.ok servers =>
          match healthLoop env servers [] with
          | (sts, some _) => sts
          | (sts, none) =>
            match env.saveLog with
            | Except.ok _ => sts
            | Except.error _ => sts) = _
      rw [hfind]
      show (match healthLoop env servers [] with
        | (sts, some _) => sts
        | (sts, none) =>
          match env.saveLog with
          | Except.ok _ => sts
          | Except.error _ => sts) = _
      rw [lemHealthLoopAllSaves env hsave servers []]
      cases env.saveLog <;> rfl
    rw [hrun]
    exact lemFoldlLookup env servers [] hnodup srv hmem

/-- Witness for C8: with one target down (connection refused) and one target
up, the up target is still probed and classified. -/
theorem checkServerHealth_resilient_witness :
    assocLookup (checkServerHealth healthEnvW 0 "sid" false (some ⟨0⟩) [])
        "b-srv"
      = some (probeStatus healthEnvW ⟨"b-srv", "http://b", "Unknown"⟩) :=
  (checkServerHealth_resilient healthEnvW 0 "sid" []).2.2 ⟨0⟩
    [⟨"a-srv", "http://a", "Unknown"⟩, ⟨"b-srv", "http://b", "Unknown"⟩]
    rfl (fun _ => rfl) (by decide) ⟨"b-srv", "http://b", "Unknown"⟩
    (by decide)

/-- Dropping a line starting at its newline terminator. -/
theorem lemDropLineNl (t : List Char) : dropLine ('\n' :: t) = t := by
  simp [dropLine]

/-- Dropping a line skips any non-newline character. -/
theorem lemDropLineConsNe (c : Char) (t : List Char) (h : c ≠ '\n') :
    dropLine (c :: t) = dropLine t := by
  simp [dropLine, beq_eq_false_iff_ne.mpr h]

/-- Dropping a line consumes exactly through the first newline. -/
theorem lemDropLineAppend : ∀ (l r : List Char), '\n' ∉ l →
    dropLine (l ++ '\n' :: r) = r := by
  intro l
  induction l with
  | nil => intro r _; exact lemDropLineNl r
  | cons a t ih =>
    intro r hnl
    have ha : a ≠ '\n' := by
      intro h; subst h; exact hnl (List.mem_cons_self _ t)
    rw [List.cons_append, lemDropLineConsNe a _ ha,
      ih r (fun h => hnl (List.mem_cons_of_mem a h))]

/-- The key scanner consumes exactly a run of key characters up to the first
non-key character. -/
theorem lemTakeKeyAppend (d : Char) (hd : isKeyChar d = false) :
    ∀ (k r : List Char), (∀ c ∈ k, isKeyChar c = true) →
      takeKey (k ++ d :: r) = (k, d :: r) := by
  intro k
  induction k with
  | nil =>
    intro r _
    show takeKey (d :: r) = ([], d :: r)
    simp [takeKey, hd]
  | cons a t ih =>
    intro r hk
    have ha : isKeyChar a = true := hk a (List.mem_cons_self a t)
    show takeKey (a :: (t ++ d :: r)) = (a :: t, d :: r)
    simp [takeKey, ha, ih r (fun c hc => hk c (List.mem_cons_of_mem a hc))]

/-- The quote scanner closes immediately at the quote character. -/
theorem lemScanQuotedAtQuote (q : Char) (t : List Char)
    (hq : q ≠ backslashChar) : scanQuoted q (q :: t) = some ([], t) := by
  cases t with
  | nil => simp [scanQuoted, beq_eq_false_iff_ne.mpr hq]
  | cons c2 rest2 => simp [scanQuoted, beq_eq_false_iff_ne.mpr hq]

/-- The quote scanner passes over an ordinary content character. -/
theorem lemScanQuotedConsNe (q c : Char) (t : List Char) (hq : c ≠ q)
    (hb : c ≠ backslashChar) :
    scanQuoted q (c :: t)
      = (scanQuoted q t).map (fun pr => (c :: pr.1, pr.2)) := by
  cases t with
  | nil =>
    simp [scanQuoted, beq_eq_false_iff_ne.mpr hq, beq_eq_false_iff_ne.mpr hb]
  | cons c2 rest2 =>
    simp only [scanQuoted, beq_eq_false_iff_ne.mpr hq,
      beq_eq_false_iff_ne.mpr hb, Bool.false_eq_true, if_false]
    cases scanQuoted q (c2 :: rest2) <;> rfl

/-- On content free of the quote and of backslashes, the quote scanner
returns exactly the content before the closing quote and the input after
it. -/
theorem lemScanQuotedAppend (q : Char) (hqb : q ≠ backslashChar) :
    ∀ (w r : List Char), q ∉ w → backslashChar ∉ w →
      scanQuoted q (w ++ q :: r) = some (w, r) := by
  intro w
  induction w with
  | nil => intro r _ _; exact lemScanQuotedAtQuote q r hqb
  | cons a w2 ih =>
    intro r hqw hbw
    have haq : a ≠ q := by
      intro h; subst h; exact hqw (List.mem_cons_self _ w2)
    have hab : a ≠ backslashChar := by
      intro h; subst h; exact hbw (List.mem_cons_self _ w2)
    rw [List.cons_append, lemScanQuotedConsNe q a _ haq hab,
      ih r (fun h => hqw (List.mem_cons_of_mem a h))
        (fun h => hbw (List.mem_cons_of_mem a h))]
    rfl

/-- Escape expansion passes over a non-backslash character. -/
theorem lemExpandConsNe (c : Char) (t : List Char) (hb : c ≠ backslashChar) :
    expandEscapes (c :: t) = c :: expandEscapes t := by
  cases t with
  | nil => simp [expandEscapes]
  | cons c2 rest2 => simp [expandEscapes, beq_eq_false_iff_ne.mpr hb]

/-- Escape expansion is the identity on backslash-free content. -/
theorem lemExpandNoBackslash : ∀ (l : List Char), backslashChar ∉ l →
    expandEscapes l = l := by
  intro l
  induction l with
  | nil => intro _; rfl
  | cons a t ih =>
    intro hb
    have ha : a ≠ backslashChar := by
      intro h; subst h; exact hb (List.mem_cons_self _ t)
    rw [lemExpandConsNe a t ha, ih (fun h => hb (List.mem_cons_of_mem a h))]

/-- Newline normalization passes over a non-carriage-return character. -/
theorem lemNormConsNe (c : Char) (t : List Char) (h : c ≠ '\r') :
    normalizeNewlines (c :: t) = c :: normalizeNewlines t := by
  cases t with
  | nil => simp [normalizeNewlines, beq_eq_false_iff_ne.mpr h]
  | cons c2 rest2 => simp [normalizeNewlines, beq_eq_false_iff_ne.mpr h]

/-- Newline normalization is the identity on carriage-return-free input. -/
theorem lemNormNoCR : ∀ (l : List Char), '\r' ∉ l →
    normalizeNewlines l = l := by
  intro l
  induction l with
  | nil => intro _; rfl
  | cons a t ih =>
    intro hr
    have ha : a ≠ '\r' := by
      intro h; subst h; exact hr (List.mem_cons_self _ t)
    rw [lemNormConsNe a t ha, ih (fun h => hr (List.mem_cons_of_mem a h))]

/-- Key characters are not whitespace. -/
theorem lemKeyNotWs (c : Char) (h : isKeyChar c = true) : isWsChar c = false := by
  cases hws : isWsChar c
  · rfl
  · exfalso
    have hc : (c = ' ' ∨ c = '\t') ∨ c = '\n' := by
      simpa [isWsChar] using hws
    rcases hc with (h1 | h1) | h1 <;> subst h1 <;> exact absurd h (by decide)

/-- One scanner iteration drops a comment line entirely: nothing is recorded
from it. -/
theorem lemEnvScanComment (f : Nat) (cmt rest : List Char)
    (acc : List (String × String)) (hc : '\n' ∉ cmt) :
    envScanGo (f + 1) ('#' :: ' ' :: (cmt ++ '\n' :: rest)) acc
      = envScanGo f rest acc := by
  show envScanGo f (dropLine ('#' :: ' ' :: (cmt ++ '\n' :: rest))) acc
    = envScanGo f rest acc
  rw [lemDropLineConsNe _ _ (by decide), lemDropLineConsNe _ _ (by decide),
    lemDropLineAppend cmt rest hc]

/-- One scanner iteration consumes a whole `KEY="..."` assignment whose
double-quoted value spans physical lines, recording the key bound to the
exact interior of the quotes, and a following iteration on the exhausted
input returns the accumulator. -/
theorem lemEnvScanAssign (f : Nat) (kh : Char) (kt w : List Char)
    (acc : List (String × String))
    (hkc : ∀ c ∈ kh :: kt, isKeyChar c = true)
    (hqw : quoteD ∉ w) (hbw : backslashChar ∉ w) :
    envScanGo (f + 1 + 1)
        ((kh :: kt) ++ '=' :: quoteD :: (w ++ quoteD :: '\n' :: [])) acc
      = objSet acc (String.mk (kh :: kt)) (String.mk w) := by
  have hkh : isKeyChar kh = true := hkc kh (List.mem_cons_self kh kt)
  have hdw : List.dropWhile isWsChar
      (kh :: (kt ++ '=' :: quoteD :: (w ++ quoteD :: '\n' :: [])))
      = kh :: (kt ++ '=' :: quoteD :: (w ++ quoteD :: '\n' :: [])) := by
    rw [List.dropWhile_cons, lemKeyNotWs kh hkh]
    simp
  have htk : takeKey
      (kh :: (kt ++ '=' :: quoteD :: (w ++ quoteD :: '\n' :: [])))
      = (kh :: kt, '=' :: quoteD :: (w ++ quoteD :: '\n' :: [])) := by
    have h2 := lemTakeKeyAppend '=' (by decide) (kh :: kt)
      (quoteD :: (w ++ quoteD :: '\n' :: [])) hkc
    rwa [List.cons_append] at h2
  have hscan : scanQuoted quoteD (w ++ quoteD :: '\n' :: [])
      = some (w, '\n' :: []) :=
    lemScanQuotedAppend quoteD (by decide) w ('\n' :: []) hqw hbw
  have hexp : expandEscapes w = w := lemExpandNoBackslash w hbw
  have hhw : headWs ('=' :: quoteD :: (w ++ quoteD :: '\n' :: [])) = false :=
    rfl
  rw [List.cons_append]
  simp only [envScanGo]
  rw [hdw]
  simp only [htk, List.isEmpty_cons, Bool.false_eq_true, if_false, hhw,
    Bool.and_false, List.dropWhile_cons,
    show isInlineWsChar '=' = false from rfl,
    show isInlineWsChar quoteD = false from rfl,
    show (('=' : Char) == '=') = true from rfl, Bool.true_or, if_true,
    show isQuoteChar quoteD = true from rfl, hscan,
    show (quoteD == quoteD) = true from rfl, hexp]
  rfl

/-- Non-membership distributes over list append. -/
theorem lemNotMemAppend {a : Char} {l1 l2 : List Char} (h1 : a ∉ l1)
    (h2 : a ∉ l2) : a ∉ l1 ++ l2 := by
  intro h
  rcases List.mem_append.mp h with h | h
  · exact h1 h
  · exact h2 h

/-- Non-membership distributes over cons. -/
theorem lemNotMemCons {a c : Char} {l : List Char} (h1 : a ≠ c)
    (h2 : a ∉ l) : a ∉ c :: l := by
  intro h
  rcases List.mem_cons.mp h with h | h
  · exact h1 h
  · exact h2 h

/-- C7: a configuration blob consisting of a comment line followed by an
assignment whose double-quoted value spans two physical lines parses to
exactly one binding — the key bound to the exact unwrapped multi-line string
(quotes stripped, the interior newline preserved) — and no entry derived from
the comment line is present. -/
theorem parseEnv_multiline_roundtrip :
    ∀ (cmt : List Char) (kh : Char) (kt v1 v2 : List Char),
      (∀ c ∈ kh :: kt, isKeyChar c = true) →
      '\n' ∉ cmt → '\r' ∉ cmt →
      quoteD ∉ v1 → backslashChar ∉ v1 → '\r' ∉ v1 →
      quoteD ∉ v2 → backslashChar ∉ v2 → '\r' ∉ v2 →
      parseEnvContent (String.mk ('#' :: ' ' :: (cmt ++ '\n' ::
          ((kh :: kt) ++ '=' :: quoteD ::
            ((v1 ++ '\n' :: v2) ++ quoteD :: '\n' :: [])))))
        = [(String.mk (kh :: kt), String.mk (v1 ++ '\n' :: v2))] := by
  intro cmt kh kt v1 v2 hkc hcn hcr hq1 hb1 hr1 hq2 hb2 hr2
  have hqw : quoteD ∉ v1 ++ '\n' :: v2 :=
    lemNotMemAppend hq1 (lemNotMemCons (by decide) hq2)
  have hbw : backslashChar ∉ v1 ++ '\n' :: v2 :=
    lemNotMemAppend hb1 (lemNotMemCons (by decide) hb2)
  have hknr : '\r' ∉ kh :: kt := by
    intro hmem
    exact absurd (hkc _ hmem) (by decide)
  have hrblob : '\r' ∉ ('#' :: ' ' :: (cmt ++ '\n' ::
      ((kh :: kt) ++ '=' :: quoteD ::
        ((v1 ++ '\n' :: v2) ++ quoteD :: '\n' :: [])))) :=
    lemNotMemCons (by decide) (lemNotMemCons (by decide)
      (lemNotMemAppend hcr (lemNotMemCons (by decide)
        (lemNotMemAppend hknr (lemNotMemCons (by decide)
          (lemNotMemCons (by decide)
            (lemNotMemAppend
              (lemNotMemAppend hr1 (lemNotMemCons (by decide) hr2))
              (lemNotMemCons (by decide)
                (lemNotMemCons (by decide) (by simp))))))))))
  have hnorm := lemNormNoCR _ hrblob
  show envScanGo ((normalizeNewlines ('#' :: ' ' :: (cmt ++ '\n' ::
      ((kh :: kt) ++ '=' :: quoteD ::
        ((v1 ++ '\n' :: v2) ++ quoteD :: '\n' :: []))))).length + 1)
    (normalizeNewlines ('#' :: ' ' :: (cmt ++ '\n' ::
      ((kh :: kt) ++ '=' :: quoteD ::
        ((v1 ++ '\n' :: v2) ++ quoteD :: '\n' :: []))))) []
    = [(String.mk (kh :: kt), String.mk (v1 ++ '\n' :: v2))]
  rw [hnorm]
  rw [lemEnvScanComment (('#' :: ' ' :: (cmt ++ '\n' ::
      ((kh :: kt) ++ '=' :: quoteD ::
        ((v1 ++ '\n' :: v2) ++ quoteD :: '\n' :: [])))).length)
    cmt _ [] hcn]
  rw [show ('#' :: ' ' :: (cmt ++ '\n' ::
      ((kh :: kt) ++ '=' :: quoteD ::
        ((v1 ++ '\n' :: v2) ++ quoteD :: '\n' :: [])))).length
    = (cmt.length + kt.length + v1.length + v2.length + 7) + 1 + 1 by
      simp [List.length_append, List.length_cons]
      omega]
  rw [lemEnvScanAssign (cmt.length + kt.length + v1.length + v2.length + 7)
    kh kt (v1 ++ '\n' :: v2) [] hkc hqw hbw]
  rfl

/-- Witness for C7 at a concrete blob: comment line, key `MULTI`, value
spanning two lines inside double quotes. -/
theorem parseEnv_multiline_roundtrip_witness :
    parseEnvContent (String.mk ('#' :: ' ' :: ("a comment".data ++ '\n' ::
        (('M' :: "ULTI".data) ++ '=' :: quoteD ::
          (("line1".data ++ '\n' :: "line2".data) ++ quoteD :: '\n' :: [])))))
      = [(String.mk ('M' :: "ULTI".data),
          String.mk ("line1".data ++ '\n' :: "line2".data))] :=
  parseEnv_multiline_roundtrip "a comment".data 'M' "ULTI".data
    "line1".data "line2".data (by decide) (by decide) (by decide)
    (by decide) (by decide) (by decide) (by decide) (by decide) (by decide)

/-- Witness for C2: a concrete valid bundle against an unreachable store gets
the connection-failure redirect while the session has been committed and is
accepted by `requireAuth`. -/
theorem uploadEnv_failure_behavior_witness :
    uploadEnvRoute envNoConnect "sid" (some "MONGO_URI=db://x\nAPI_KEY=k1\n")
        freshSession initialState
      = (Response.redirectTo "/?error=db_connection_failed",
         ⟨some (commitConfig (parseEnvContent "MONGO_URI=db://x\nAPI_KEY=k1\n")),
          some false⟩, initialState)
    ∧ requireAuth
        ⟨some (commitConfig (parseEnvContent "MONGO_URI=db://x\nAPI_KEY=k1\n")),
         some false⟩
        = AuthGate.proceed :=
  (uploadEnv_failure_behavior envNoConnect "sid" freshSession initialState).2.2
    "MONGO_URI=db://x\nAPI_KEY=k1\n" "db://x" (by decide) (by decide)
    (by decide) (by decide) (by decide) rfl

/-- Witness for C3: a concrete guest session attempting the delete-server
operation gets the guest-mode 403 with the state unchanged. -/
theorem guest_writes_rejected_witness :
    serversDeleteRoute okEnv "sid" reqEmpty guestSessionW initialState
      = (Response.jsonMsg 403 "Cannot delete servers in guest mode",
         initialState) :=
  (guest_writes_rejected_unmutated okEnv 0 "sid" reqEmpty guestSessionW
    initialState rfl).2.2.1
